import Mathlib

/-!
Verification of the asset-resolver and content-provider logic of the
portfolio application. The Python sources are shallowly embedded:
`app/core/assets.py` as namespace `Assets`, the self-contained resolver and
data provider of `main.py` as namespace `MainApp`. Randomness
(`random.randint`) is modelled by an explicit draw `r` from the random
source, exceptions by an explicit `exc`/failure oracle, and `asyncio.sleep`
(pure delay, no observable effect on the returned value) is dropped.
-/

set_option maxRecDepth 40000

namespace Portfolio

/-- Model of Python `random.randint lo hi`: the value produced from a draw
`r` of the underlying random source, always in `[lo, hi]`. -/
def randint (lo hi r : Nat) : Nat := lo + r % (hi + 1 - lo)

/-- Model of Python `category.replace(" ", "+")`: every space character is
replaced by `'+'`. -/
def plusEncode (s : String) : String := ⟨s.data.map fun c => if c = ' ' then '+' else c⟩

namespace Assets

/-- `ProfessionalAssetManager.AI_CATEGORIES` from `app/core/assets.py`. -/
def AI_CATEGORIES : List String :=
  ["artificial intelligence",
   "machine learning",
   "data science",
   "neural network",
   "technology",
   "code",
   "algorithm",
   "robotics",
   "deep learning",
   "computer vision"]

/-- `ProfessionalAssetManager.FALLBACK_IMAGES` from `app/core/assets.py`. -/
def FALLBACK_IMAGES : List String :=
  ["https://picsum.photos/800/600?random=1",
   "https://picsum.photos/800/600?random=2",
   "https://picsum.photos/800/600?random=3",
   "https://picsum.photos/800/600?random=4",
   "https://picsum.photos/800/600?random=5"]

/-- `ProfessionalAssetManager.get_ai_image` from `app/core/assets.py`.
`index` is a Python integer (Python `%` on a positive modulus is `Int.emod`,
which is Lean's `%` on `Int`); `r` is the draw consumed by
`random.randint(1000, 9999)`; `exc = true` models an exception being raised
anywhere in the `try` body, which the `except` arm answers with
`FALLBACK_IMAGES[index % len(FALLBACK_IMAGES)]`. -/
def get_ai_image (index : Int) (width height : Nat) (r : Nat) (exc : Bool) : String :=
  if exc then
    FALLBACK_IMAGES[(index % (FALLBACK_IMAGES.length : Int)).toNat]!
  else
    let category := AI_CATEGORIES[(index % (AI_CATEGORIES.length : Int)).toNat]!
    let seed := randint 1000 9999 r
    let formatted_category := plusEncode category
    "https://source.unsplash.com/" ++ toString width ++ "x" ++ toString height ++
      "/?" ++ formatted_category ++ "&sig=" ++ toString seed

/-- `ProfessionalAssetManager.get_hero_image` from `app/core/assets.py`:
token from `random.randint(10000, 99999)`; on exception a picsum URL with a
token from `random.randint(1, 1000)` (draw `rFall`). -/
def get_hero_image (width height : Nat) (r rFall : Nat) (exc : Bool) : String :=
  if exc then
    "https://picsum.photos/" ++ toString width ++ "/" ++ toString height ++
      "?random=" ++ toString (randint 1 1000 rFall)
  else
    "https://source.unsplash.com/" ++ toString width ++ "x" ++ toString height ++
      "/?artificial+intelligence+technology+code&sig=" ++ toString (randint 10000 99999 r)

/-- `ProfessionalAssetManager.get_profile_image` from `app/core/assets.py`:
token from `random.randint(5000, 9999)`. -/
def get_profile_image (width height : Nat) (r rFall : Nat) (exc : Bool) : String :=
  if exc then
    "https://picsum.photos/" ++ toString width ++ "/" ++ toString height ++
      "?random=" ++ toString (randint 1 1000 rFall)
  else
    "https://source.unsplash.com/" ++ toString width ++ "x" ++ toString height ++
      "/?professional+portrait+technology&sig=" ++ toString (randint 5000 9999 r)

/-- The per-item body of `ProfessionalAssetManager.cache_images`
(`app/core/assets.py` lines 162-172): the list of `count` URLs built for one
category at outer-loop position `j`. `s j i` is the draw consumed by
`random.randint(1000, 9999)` for inner index `i`; `e j i = true` models an
exception for that item, answered by `FALLBACK_IMAGES[i % len(FALLBACK_IMAGES)]`
(note: inner index `i`, not the category position). -/
def mkImgs (count : Nat) (s : Nat → Nat → Nat) (e : Nat → Nat → Bool)
    (j : Nat) (category : String) : List String :=
  (List.range count).map fun i =>
    if e j i then
      FALLBACK_IMAGES[i % FALLBACK_IMAGES.length]!
    else
      "https://source.unsplash.com/800x600/?" ++ plusEncode category ++
        "&sig=" ++ toString (randint 1000 9999 (s j i))

/-- Python `dict` assignment `d[k] = v`: overwrite the entry of `k` in place
if present, otherwise append a new entry (insertion order preserved). -/
def dictInsert : List (String × List String) → String → List String →
    List (String × List String)
  | [], k, v => [(k, v)]
  | (k', v') :: rest, k, v =>
    if k' = k then (k, v) :: rest else (k', v') :: dictInsert rest k v

/-- Python `dict` lookup `d[k]` (as an `Option`): first entry with key `k`. -/
def lookupD : List (String × List String) → String → Option (List String)
  | [], _ => none
  | (k', v) :: rest, k => if k' = k then some v else lookupD rest k

/-- The `for category in categories` loop of
`ProfessionalAssetManager.cache_images`, carrying the position `j` of the
current category so that each iteration consumes its own random draws. -/
def cache_loop (count : Nat) (s : Nat → Nat → Nat) (e : Nat → Nat → Bool) :
    List String → Nat → List (String × List String) → List (String × List String)
  | [], _, d => d
  | c :: rest, j, d => cache_loop count s e rest (j + 1) (dictInsert d c (mkImgs count s e j c))

/-- `ProfessionalAssetManager.cache_images` from `app/core/assets.py`:
builds `count` URLs per category and stores them under the category key of
an (insertion-ordered) dictionary, starting from the empty dict. -/
def cache_images (categories : List String) (count : Nat)
    (s : Nat → Nat → Nat) (e : Nat → Nat → Bool) : List (String × List String) :=
  cache_loop count s e categories 0 []

/-- The alternating literal/interpolation segments of the f-string returned
by `ProfessionalAssetManager.get_placeholder_svg` (`app/core/assets.py`
lines 129-144); the f-string's value is their concatenation. `text_color`
(`"#ffffff"`) is inlined as its own segment; `fdiv n d` is the decimal
rendering of the Python float division `n / d` used for the guideline
coordinates (floating point itself is not modelled, only the rendered
text it contributes to the string). -/
def svgSegments (width height : Nat) (text : String) (fdiv : Nat → Nat → String) :
    List String :=
  ["<svg width='", toString width, "' height='", toString height,
   "' xmlns='http://www.w3.org/2000/svg' viewBox='0 0 ", toString width, " ", toString height,
   "'>\n  <defs>\n    <linearGradient id=\"grad\" x1=\"0%\" y1=\"0%\" x2=\"100%\" y2=\"100%\">\n      <stop offset=\"0%\" style=\"stop-color:#1a2980;stop-opacity:1\" />\n      <stop offset=\"100%\" style=\"stop-color:#26d0ce;stop-opacity:1\" />\n    </linearGradient>\n  </defs>\n  <rect fill='url(#grad)' width='",
   toString width, "' height='", toString height,
   "'/>\n  <text x='50%' y='50%' dominant-baseline='middle' text-anchor='middle' font-family='sans-serif' font-size='24' fill='",
   "#ffffff", "'>", text,
   "</text>\n  <g fill=\"none\" stroke=\"rgba(255,255,255,0.2)\" stroke-width=\"1\">\n    <path d=\"M0,",
   fdiv height 3, " L", toString width, ",", fdiv height 3,
   "\" />\n    <path d=\"M0,", fdiv (height * 2) 3, " L", toString width, ",", fdiv (height * 2) 3,
   "\" />\n    <path d=\"M", fdiv width 3, ",0 L", fdiv width 3, ",", toString height,
   "\" />\n    <path d=\"M", fdiv (width * 2) 3, ",0 L", fdiv (width * 2) 3, ",", toString height,
   "\" />\n  </g>\n</svg>"]

/-- `ProfessionalAssetManager.get_placeholder_svg` from `app/core/assets.py`:
the f-string value, i.e. the concatenation of its segments. -/
def get_placeholder_svg (width height : Nat) (text : String)
    (fdiv : Nat → Nat → String) : String :=
  String.join (svgSegments width height text fdiv)

/-- Concrete decimal renderings of the Python float divisions occurring in
`get_placeholder_svg 100 50`: `50/3`, `100/3` (= `50*2/3` and `100/3`) and
`200/3` as Python formats them. Used to instantiate `fdiv` at the sample
input `(100, 50, "Test")`. -/
def sampleDiv (n d : Nat) : String :=
  if n = 50 ∧ d = 3 then "16.666666666666668"
  else if n = 100 ∧ d = 3 then "33.333333333333336"
  else if n = 200 ∧ d = 3 then "66.66666666666667"
  else "0.0"

end Assets

namespace MainApp

/-- `AssetManager.AI_CATEGORIES` from `main.py` (8 entries). -/
def AI_CATEGORIES : List String :=
  ["artificial intelligence", "machine learning", "data science",
   "neural network", "technology", "code", "algorithm", "robotics"]

/-- `AssetManager.get_ai_image` from `main.py`. Unlike the
`ProfessionalAssetManager` variant it interpolates the category verbatim
(no space encoding) and, on exception, returns a picsum URL with a fresh
token from `random.randint(1, 1000)` (draw `rFall`). -/
def get_ai_image (index : Int) (r rFall : Nat) (exc : Bool) : String :=
  if exc then
    "https://picsum.photos/800/600?random=" ++ toString (randint 1 1000 rFall)
  else
    let category := AI_CATEGORIES[(index % (AI_CATEGORIES.length : Int)).toNat]!
    "https://source.unsplash.com/800x600/?" ++ category ++ "&sig=" ++
      toString (randint 1000 9999 r)

/-- `AssetManager.get_hero_image` from `main.py`. -/
def get_hero_image (r : Nat) (exc : Bool) : String :=
  if exc then
    "https://picsum.photos/1200/600"
  else
    "https://source.unsplash.com/1200x600/?artificial+intelligence+technology&sig=" ++
      toString (randint 10000 99999 r)

/-- One `{"name": ..., "level": ...}` skill entry of the profile. -/
structure Skill where
  name : String
  level : Nat

/-- The record returned by `PortfolioData.get_profile` in `main.py`
(the `about` triple-quoted string is transcribed with its surrounding
indentation collapsed; no claim depends on that whitespace). -/
structure Profile where
  name : String
  title : String
  tagline : String
  about : String
  skills : List Skill
  contact : List (String × String)

/-- One project record of `PortfolioData.get_projects` in `main.py`. -/
structure Project where
  title : String
  description : String
  technologies : List String
  highlights : List String

/-- `PortfolioData.get_profile` from `main.py`. -/
def get_profile : Profile :=
  { name := "Alex Morgan"
    title := "Senior AI Engineer"
    tagline := "Building intelligent systems that solve real-world problems"
    about := "Experienced AI Engineer with 7+ years of expertise in machine learning, \ndeep learning, and natural language processing. Passionate about developing \nAI solutions that drive business value and improve user experiences.\n\nMy approach combines strong theoretical foundations with practical \nimplementation skills, allowing me to take projects from research to production."
    skills :=
      [⟨"Machine Learning", 95⟩,
       ⟨"Deep Learning", 90⟩,
       ⟨"Natural Language Processing", 85⟩,
       ⟨"Computer Vision", 80⟩,
       ⟨"MLOps", 85⟩,
       ⟨"Python", 95⟩,
       ⟨"TensorFlow/PyTorch", 90⟩,
       ⟨"Data Engineering", 75⟩]
    contact :=
      [("email", "alex.morgan@example.com"),
       ("linkedin", "linkedin.com/in/alexmorgan"),
       ("github", "github.com/alexmorgan-ai"),
       ("twitter", "twitter.com/alexmorgan_ai")] }

/-- `PortfolioData.get_projects` from `main.py` (6 projects). -/
def get_projects : List Project :=
  [{ title := "Conversational AI Assistant"
     description := "Developed an advanced conversational AI system using transformer-based architecture. The system handles complex queries with contextual understanding and maintains conversation history."
     technologies := ["PyTorch", "Transformer Models", "FastAPI", "Redis", "Docker"]
     highlights :=
       ["Achieved 92% accuracy on intent recognition",
        "Reduced response latency by 40% through model optimization",
        "Implemented efficient context management for multi-turn conversations",
        "Deployed as a scalable microservice architecture"] },
   { title := "Computer Vision for Manufacturing QA"
     description := "Built a real-time defect detection system for manufacturing quality assurance using computer vision and deep learning techniques."
     technologies := ["TensorFlow", "OpenCV", "Kubernetes", "NVIDIA Triton", "Python"]
     highlights :=
       ["Reduced manual inspection time by 75%",
        "Improved defect detection accuracy to 98.5%",
        "Implemented distributed inference for high-throughput processing",
        "Created custom annotation tool for efficient data labeling"] },
   { title := "Predictive Maintenance System"
     description := "Designed and implemented a predictive maintenance system for industrial equipment using time-series analysis and anomaly detection."
     technologies := ["Scikit-learn", "Prophet", "Kafka", "Spark", "AWS"]
     highlights :=
       ["Reduced unplanned downtime by 35%",
        "Saved $1.2M annually in maintenance costs",
        "Processed 10TB+ of sensor data in real-time",
        "Developed custom feature extraction for multivariate time series"] },
   { title := "Recommendation Engine for E-commerce"
     description := "Created a personalized recommendation engine for an e-commerce platform using collaborative filtering and content-based approaches."
     technologies := ["Python", "PySpark", "Neo4j", "FastAPI", "React"]
     highlights :=
       ["Increased conversion rate by 23%",
        "Improved average order value by 15%",
        "Implemented hybrid recommendation approach with real-time updates",
        "Designed A/B testing framework for algorithm evaluation"] },
   { title := "NLP for Automated Document Processing"
     description := "Developed an NLP system for automated document processing, classification, and information extraction from unstructured text."
     technologies := ["Hugging Face Transformers", "spaCy", "Elasticsearch", "Flask", "Docker"]
     highlights :=
       ["Automated processing of 10,000+ documents daily",
        "Achieved 94% accuracy in document classification",
        "Reduced manual processing time by 80%",
        "Implemented custom named entity recognition for domain-specific extraction"] },
   { title := "MLOps Platform Development"
     description := "Led the development of an internal MLOps platform for model training, deployment, monitoring, and lifecycle management."
     technologies := ["Kubernetes", "TensorFlow Extended", "Prometheus", "Grafana", "Python"]
     highlights :=
       ["Reduced model deployment time from weeks to hours",
        "Implemented automated testing and validation pipelines",
        "Created comprehensive monitoring for model drift and performance",
        "Designed reproducible training workflows with version control"] }]

end MainApp

/-- `begMatch pat l` holds when `pat` is an initial run of `l`. -/
def begMatch : List Char → List Char → Bool
  | [], _ => true
  | a :: as, l =>
    match l with
    | [] => false
    | b :: bs => a = b && begMatch as bs

/-- `hasSub pat l`: `pat` occurs contiguously somewhere in `l`. -/
def hasSub (pat : List Char) : List Char → Bool
  | [] => begMatch pat []
  | c :: rest => begMatch pat (c :: rest) || hasSub pat rest

/-- Number of positions of `l` at which `pat` starts an occurrence. -/
def countOcc (pat : List Char) : List Char → Nat
  | [] => 0
  | c :: rest => (if begMatch pat (c :: rest) then 1 else 0) + countOcc pat rest

/-- All suffixes of a list, longest first (the empty suffix included). -/
def tailsOf : List Char → List (List Char)
  | [] => [[]]
  | c :: rest => (c :: rest) :: tailsOf rest

/-- `noSpanB pat a`: no nonempty proper initial run of `pat` ends `a`, so no
occurrence of `pat` can start inside `a` and spill past its right end. -/
def noSpanB (pat a : List Char) : Bool :=
  (tailsOf a).all fun s => s.isEmpty || decide (pat.length ≤ s.length) || !(begMatch s pat)

/-- Index of the last occurrence of `k` in a list of categories. -/
def findLastIdx (k : String) : List String → Option Nat
  | [] => none
  | c :: rest =>
    match findLastIdx k rest with
    | some i => some (i + 1)
    | none => if c = k then some 0 else none

/-- Keys accumulated by successive Python-`dict` insertions: each category
is appended at its first occurrence, later occurrences change nothing. -/
def dedupAppend (acc : List String) (cats : List String) : List String :=
  cats.foldl (fun ks c => if c ∈ ks then ks else ks ++ [c]) acc

/-- The opening of an SVG `path` element, as a character pattern. -/
def patPath : List Char := ['<', 'p', 'a', 't', 'h']

/-- The opening of an SVG gradient `stop` element, as a character pattern. -/
def patStop : List Char := ['<', 's', 't', 'o', 'p']

/-- The opening of an SVG `text` element, as a character pattern. -/
def patText : List Char := ['<', 't', 'e', 'x', 't']

/-- The sample label `"Test"`, as a character pattern. -/
def patTest : List Char := ['T', 'e', 's', 't']

lemma strDataApp (a b : String) : (a ++ b).data = a.data ++ b.data := rfl

lemma strExt {a b : String} (h : a.data = b.data) : a = b := by
  cases a; cases b
  exact congrArg String.mk (by simpa using h)

lemma foldl_append_data (L : List String) :
    ∀ s : String, (L.foldl (· ++ ·) s).data = s.data ++ (L.map String.data).flatten := by
  induction L with
  | nil => intro s; simp
  | cons a L ih =>
    intro s
    simp only [List.foldl_cons, ih, strDataApp, List.map_cons, List.flatten_cons,
      List.append_assoc]

lemma join_data (L : List String) : (String.join L).data = (L.map String.data).flatten := by
  rw [show String.join L = L.foldl (· ++ ·) "" from rfl, foldl_append_data]
  rfl

lemma begMatch_append_self (pat b : List Char) : begMatch pat (pat ++ b) = true := by
  induction pat with
  | nil => rfl
  | cons c p ih => simp [begMatch, ih]

lemma begMatch_length : ∀ {pat l : List Char}, begMatch pat l = true → pat.length ≤ l.length := by
  intro pat
  induction pat with
  | nil => intro l _; simp
  | cons c p ih =>
    intro l h
    cases l with
    | nil => simp [begMatch] at h
    | cons b bs =>
      simp only [begMatch, Bool.and_eq_true] at h
      simpa using ih h.2

lemma begMatch_rev : ∀ {s pat b : List Char}, begMatch pat (s ++ b) = true →
    s.length < pat.length → begMatch s pat = true := by
  intro s
  induction s with
  | nil => intro pat b _ _; rfl
  | cons c s' ih =>
    intro pat b h hlen
    cases pat with
    | nil => simp at hlen
    | cons p ps =>
      simp only [List.cons_append, begMatch, Bool.and_eq_true] at h ⊢
      refine ⟨by simpa [decide_eq_true_eq] using (decide_eq_true_eq.mp h.1).symm, ?_⟩
      exact ih h.2 (by simpa using hlen)

lemma begMatch_stable : ∀ {pat l : List Char} (b : List Char), pat.length ≤ l.length →
    begMatch pat (l ++ b) = begMatch pat l := by
  intro pat
  induction pat with
  | nil => intro l b _; rfl
  | cons p ps ih =>
    intro l b hlen
    cases l with
    | nil => simp at hlen
    | cons c l' =>
      simp only [List.cons_append, begMatch, List.append_eq]
      rw [ih b (by simpa using hlen)]

lemma begMatch_head_mem {ch : Char} {p l : List Char}
    (h : begMatch (ch :: p) l = true) : ch ∈ l := by
  cases l with
  | nil => simp [begMatch] at h
  | cons c rest =>
    simp only [begMatch, Bool.and_eq_true, decide_eq_true_eq] at h
    exact h.1 ▸ List.mem_cons_self c rest

lemma countOcc_zero {ch : Char} {p l : List Char} (h : ch ∉ l) :
    countOcc (ch :: p) l = 0 := by
  induction l with
  | nil => rfl
  | cons c rest ih =>
    have hr : ch ∉ rest := fun m => h (List.mem_cons_of_mem _ m)
    have hb : begMatch (ch :: p) (c :: rest) = false := by
      cases hb : begMatch (ch :: p) (c :: rest)
      · rfl
      · exact absurd (begMatch_head_mem hb) h
    simp [countOcc, hb, ih hr]

lemma hasSub_of_beg {pat l : List Char} (h : begMatch pat l = true) : hasSub pat l = true := by
  cases l with
  | nil => exact h
  | cons c rest => simp [hasSub, h]

lemma hasSub_append_left (pat : List Char) :
    ∀ (a : List Char) {l : List Char}, hasSub pat l = true → hasSub pat (a ++ l) = true := by
  intro a
  induction a with
  | nil => intro l h; simpa using h
  | cons c a' ih =>
    intro l h
    simp only [List.cons_append, hasSub, Bool.or_eq_true]
    exact Or.inr (ih h)

lemma begMatch_ext : ∀ {pat l : List Char} (b : List Char),
    begMatch pat l = true → begMatch pat (l ++ b) = true := by
  intro pat
  induction pat with
  | nil => intro l b _; rfl
  | cons p ps ih =>
    intro l b h
    cases l with
    | nil => simp [begMatch] at h
    | cons c l' =>
      simp only [begMatch, Bool.and_eq_true] at h
      simp only [List.cons_append, begMatch, Bool.and_eq_true]
      exact ⟨h.1, ih b h.2⟩

lemma hasSub_append_rt {pat : List Char} :
    ∀ {l : List Char} (b : List Char), hasSub pat l = true → hasSub pat (l ++ b) = true := by
  intro l
  induction l with
  | nil =>
    intro b h
    have hp : pat = [] := by
      cases pat with
      | nil => rfl
      | cons p ps => simp [hasSub, begMatch] at h
    subst hp
    cases b with
    | nil => rfl
    | cons c b' => simp [hasSub, begMatch]
  | cons c l' ih =>
    intro b h
    simp only [hasSub, Bool.or_eq_true] at h
    simp only [List.cons_append, hasSub, Bool.or_eq_true]
    rcases h with h | h
    · exact Or.inl (by simpa using begMatch_ext b h)
    · exact Or.inr (ih b h)

lemma hasSub_flatten {pat s : List Char} {L : List (List Char)}
    (hm : s ∈ L) (hsub : hasSub pat s = true) : hasSub pat L.flatten = true := by
  induction L with
  | nil => cases hm
  | cons a L ih =>
    rw [List.flatten_cons]
    rcases List.mem_cons.mp hm with rfl | hm'
    · exact hasSub_append_rt L.flatten hsub
    · exact hasSub_append_left pat a (ih hm')

lemma noSpanB_tail {pat : List Char} {c : Char} {a : List Char}
    (h : noSpanB pat (c :: a) = true) : noSpanB pat a = true := by
  simp only [noSpanB, tailsOf, List.all_cons, Bool.and_eq_true] at h
  exact h.2

lemma noSpanB_headCond {pat : List Char} {c : Char} {a : List Char}
    (h : noSpanB pat (c :: a) = true) :
    (decide (pat.length ≤ (c :: a).length) || !begMatch (c :: a) pat) = true := by
  simp only [noSpanB, tailsOf, List.all_cons, Bool.and_eq_true] at h
  have h1 := h.1
  simpa [List.isEmpty] using h1

lemma noSpanB_head {ch : Char} (p : List Char) :
    ∀ {a : List Char}, ch ∉ a → noSpanB (ch :: p) a = true := by
  intro a
  induction a with
  | nil => intro _; rfl
  | cons c a' ih =>
    intro ha
    have hc : (ch : Char) ≠ c := fun e => ha (e ▸ List.mem_cons_self c a')
    have hr : ch ∉ a' := fun m => ha (List.mem_cons_of_mem _ m)
    have h2 := ih hr
    have hb : begMatch (c :: a') (ch :: p) = false := by
      cases hb : begMatch (c :: a') (ch :: p)
      · rfl
      · simp only [begMatch, Bool.and_eq_true, decide_eq_true_eq] at hb
        exact absurd hb.1.symm hc
    simp only [noSpanB, tailsOf, List.all_cons, Bool.and_eq_true]
    refine ⟨?_, by simpa [noSpanB] using h2⟩
    simp [hb]

lemma countOcc_append (pat : List Char) :
    ∀ (a b : List Char), noSpanB pat a = true →
    countOcc pat (a ++ b) = countOcc pat a + countOcc pat b := by
  intro a
  induction a with
  | nil => intro b _; simp [countOcc]
  | cons c a' ih =>
    intro b h
    have h' := noSpanB_tail h
    have hf := noSpanB_headCond h
    have key : begMatch pat (c :: (a' ++ b)) = begMatch pat (c :: a') := by
      by_cases hle : pat.length ≤ (c :: a').length
      · exact begMatch_stable b hle
      · have hnb : begMatch (c :: a') pat = false := by
          rcases Bool.or_eq_true_iff.mp hf with hl | hr
          · exact absurd (of_decide_eq_true hl) hle
          · cases hx : begMatch (c :: a') pat
            · rfl
            · rw [hx] at hr; exact absurd hr (by simp)
        have hlen : (c :: a').length < pat.length := by omega
        have hR : begMatch pat (c :: a') = false := by
          cases hx : begMatch pat (c :: a')
          · rfl
          · exact absurd (begMatch_length hx) (by omega)
        have hL : begMatch pat (c :: (a' ++ b)) = false := by
          cases hx : begMatch pat (c :: (a' ++ b))
          · rfl
          · have hrev := begMatch_rev (b := b) (by simpa using hx) hlen
            rw [hnb] at hrev
            exact absurd hrev (by simp)
        rw [hL, hR]
    have expand : ∀ l : List Char,
        countOcc pat (c :: l) = (if begMatch pat (c :: l) then 1 else 0) + countOcc pat l :=
      fun _ => rfl
    rw [List.cons_append, expand (a' ++ b), expand a', key, ih b h', Nat.add_assoc]

lemma countOcc_flattenL (pat : List Char) :
    ∀ L : List (List Char), (∀ s ∈ L, noSpanB pat s = true) →
    countOcc pat L.flatten = (L.map (countOcc pat)).sum := by
  intro L
  induction L with
  | nil => intro _; rfl
  | cons s L ih =>
    intro h
    simp only [List.flatten_cons, List.map_cons, List.sum_cons]
    rw [countOcc_append pat s L.flatten (h s (List.mem_cons_self s L)),
      ih fun x hx => h x (List.mem_cons_of_mem _ hx)]

lemma digitChar_lt10_ne :
    ∀ m : Fin 10, Nat.digitChar m ≠ ' ' ∧ Nat.digitChar m ≠ '<' := by
  decide

lemma mem_toDigitsCore :
    ∀ (fuel n : Nat) (acc : List Char) (c : Char),
    c ∈ Nat.toDigitsCore 10 fuel n acc → c ∈ acc ∨ ∃ m, m < 10 ∧ c = Nat.digitChar m := by
  intro fuel
  induction fuel with
  | zero => intro n acc c h; exact Or.inl h
  | succ f ih =>
    intro n acc c h
    have hm : n % 10 < 10 := Nat.mod_lt n (by norm_num)
    simp only [Nat.toDigitsCore] at h
    split at h
    · rcases List.mem_cons.mp h with h | h
      · exact Or.inr ⟨n % 10, hm, h⟩
      · exact Or.inl h
    · rcases ih (n / 10) (Nat.digitChar (n % 10) :: acc) c h with h' | h'
      · rcases List.mem_cons.mp h' with h'' | h''
        · exact Or.inr ⟨n % 10, hm, h''⟩
        · exact Or.inl h''
      · exact Or.inr h'

lemma repr_data (n : Nat) : (toString n).data = Nat.toDigitsCore 10 (n + 1) n [] := rfl

lemma repr_digitChar (n : Nat) :
    ∀ c ∈ (toString n).data, ∃ m, m < 10 ∧ c = Nat.digitChar m := by
  intro c hc
  rw [repr_data] at hc
  rcases mem_toDigitsCore (n + 1) n [] c hc with h | h
  · cases h
  · exact h

lemma repr_no_space (n : Nat) : ' ' ∉ (toString n).data := by
  intro hc
  rcases repr_digitChar n ' ' hc with ⟨m, hm, he⟩
  exact (digitChar_lt10_ne ⟨m, hm⟩).1 he.symm

lemma repr_no_lt (n : Nat) : '<' ∉ (toString n).data := by
  intro hc
  rcases repr_digitChar n '<' hc with ⟨m, hm, he⟩
  exact (digitChar_lt10_ne ⟨m, hm⟩).2 he.symm

lemma toDigitsCore_eq_digits :
    ∀ (fuel n : Nat) (acc : List Char), 0 < n → n < fuel →
    Nat.toDigitsCore 10 fuel n acc = ((Nat.digits 10 n).map Nat.digitChar).reverse ++ acc := by
  intro fuel
  induction fuel with
  | zero => intro n acc h0 h; omega
  | succ f ih =>
    intro n acc h0 h
    simp only [Nat.toDigitsCore]
    rw [Nat.digits_def' (by norm_num : 1 < 10) h0]
    split
    · next hq =>
      rw [hq, Nat.digits_zero]
      simp
    · next hq =>
      have h0' : 0 < n / 10 := Nat.pos_of_ne_zero hq
      have hlt : n / 10 < f := by
        have := Nat.div_lt_self h0 (by norm_num : 1 < 10)
        omega
      rw [ih (n / 10) (Nat.digitChar (n % 10) :: acc) h0' hlt]
      simp [List.append_assoc]

lemma repr_data_eq (n : Nat) (h : 0 < n) :
    (toString n).data = ((Nat.digits 10 n).map Nat.digitChar).reverse := by
  rw [repr_data, toDigitsCore_eq_digits (n + 1) n [] h (by omega)]
  simp

lemma digitChar_inj10 : ∀ (a b : Fin 10), Nat.digitChar a = Nat.digitChar b → a = b := by
  decide

lemma map_digitChar_inj :
    ∀ (l₁ l₂ : List Nat), (∀ x ∈ l₁, x < 10) → (∀ x ∈ l₂, x < 10) →
    l₁.map Nat.digitChar = l₂.map Nat.digitChar → l₁ = l₂ := by
  intro l₁
  induction l₁ with
  | nil =>
    intro l₂ _ _ h
    cases l₂ with
    | nil => rfl
    | cons b l' => simp at h
  | cons a l ih =>
    intro l₂ h1 h2 h
    cases l₂ with
    | nil => simp at h
    | cons b l' =>
      simp only [List.map_cons, List.cons.injEq] at h
      have ha : a < 10 := h1 a (List.mem_cons_self a l)
      have hb : b < 10 := h2 b (List.mem_cons_self b l')
      have hab : a = b := by
        have := digitChar_inj10 ⟨a, ha⟩ ⟨b, hb⟩ h.1
        exact congrArg Fin.val this
      rw [hab, ih l' (fun x hx => h1 x (List.mem_cons_of_mem _ hx))
        (fun x hx => h2 x (List.mem_cons_of_mem _ hx)) h.2]

lemma toString_inj_pos {m n : Nat} (hm : 0 < m) (hn : 0 < n)
    (h : toString m = toString n) : m = n := by
  have hd := congrArg String.data h
  rw [repr_data_eq m hm, repr_data_eq n hn] at hd
  have hmap := List.reverse_injective hd
  have hdig := map_digitChar_inj _ _
    (fun x hx => Nat.digits_lt_base (by norm_num) hx)
    (fun x hx => Nat.digits_lt_base (by norm_num) hx) hmap
  calc m = Nat.ofDigits 10 (Nat.digits 10 m) := (Nat.ofDigits_digits 10 m).symm
    _ = Nat.ofDigits 10 (Nat.digits 10 n) := by rw [hdig]
    _ = n := Nat.ofDigits_digits 10 n

lemma randint_bounds (lo hi r : Nat) (h : lo ≤ hi) :
    lo ≤ randint lo hi r ∧ randint lo hi r ≤ hi := by
  unfold randint
  have : r % (hi + 1 - lo) < hi + 1 - lo := Nat.mod_lt _ (by omega)
  omega

namespace Assets

lemma lookupD_dictInsert (d : List (String × List String)) (k k' : String) (v : List String) :
    lookupD (dictInsert d k v) k' = if k = k' then some v else lookupD d k' := by
  induction d with
  | nil => rfl
  | cons p rest ih =>
    obtain ⟨a, b⟩ := p
    by_cases hak : a = k
    · subst hak
      by_cases h2 : a = k'
      · subst h2
        simp [dictInsert, lookupD]
      · simp [dictInsert, lookupD, h2]
    · by_cases h2 : a = k'
      · subst h2
        have hk : k ≠ a := fun e => hak e.symm
        simp [dictInsert, lookupD, hak, hk]
      · simp [dictInsert, lookupD, hak, h2, ih]

lemma keys_dictInsert (d : List (String × List String)) (k : String) (v : List String) :
    (dictInsert d k v).map Prod.fst =
      if k ∈ d.map Prod.fst then d.map Prod.fst else d.map Prod.fst ++ [k] := by
  induction d with
  | nil => simp [dictInsert]
  | cons p rest ih =>
    obtain ⟨a, b⟩ := p
    by_cases hak : a = k
    · subst hak
      simp [dictInsert]
    · have hka : k ≠ a := fun e => hak e.symm
      by_cases hm : k ∈ rest.map Prod.fst
      · simp [dictInsert, hak, ih, hm, hka]
      · simp [dictInsert, hak, ih, hm, hka]

lemma lookupD_cache_loop (count : Nat) (s : Nat → Nat → Nat) (e : Nat → Nat → Bool)
    (k : String) :
    ∀ (cats : List String) (j : Nat) (d : List (String × List String)),
    lookupD (cache_loop count s e cats j d) k =
      match findLastIdx k cats with
      | some i => some (mkImgs count s e (j + i) k)
      | none => lookupD d k := by
  intro cats
  induction cats with
  | nil => intro j d; rfl
  | cons c rest ih =>
    intro j d
    simp only [cache_loop]
    rw [ih (j + 1) _]
    cases hf : findLastIdx k rest with
    | some i =>
      simp only [findLastIdx, hf]
      have : j + 1 + i = j + (i + 1) := by omega
      rw [this]
    | none =>
      rw [lookupD_dictInsert]
      by_cases hck : c = k
      · subst hck
        simp [findLastIdx, hf]
      · simp [findLastIdx, hf, hck]

lemma dedupAppend_cons (acc : List String) (c : String) (rest : List String) :
    dedupAppend acc (c :: rest) = dedupAppend (if c ∈ acc then acc else acc ++ [c]) rest := rfl

lemma keys_cache_loop (count : Nat) (s : Nat → Nat → Nat) (e : Nat → Nat → Bool) :
    ∀ (cats : List String) (j : Nat) (d : List (String × List String)),
    (cache_loop count s e cats j d).map Prod.fst = dedupAppend (d.map Prod.fst) cats := by
  intro cats
  induction cats with
  | nil => intro j d; rfl
  | cons c rest ih =>
    intro j d
    simp only [cache_loop]
    rw [ih (j + 1) _, dedupAppend_cons, keys_dictInsert]

lemma dedupAppend_nodup :
    ∀ (cats acc : List String), acc.Nodup → (dedupAppend acc cats).Nodup := by
  intro cats
  induction cats with
  | nil => intro acc h; exact h
  | cons c rest ih =>
    intro acc h
    rw [dedupAppend_cons]
    by_cases hc : c ∈ acc
    · rw [if_pos hc]; exact ih acc h
    · rw [if_neg hc]
      exact ih _ (by simp [List.nodup_append, h, hc])

lemma dedupAppend_mem :
    ∀ (cats acc : List String) (k : String),
    k ∈ dedupAppend acc cats ↔ k ∈ acc ∨ k ∈ cats := by
  intro cats
  induction cats with
  | nil => intro acc k; simp [dedupAppend]
  | cons c rest ih =>
    intro acc k
    rw [dedupAppend_cons]
    by_cases hc : c ∈ acc
    · rw [if_pos hc, ih]
      constructor
      · rintro (h | h)
        · exact Or.inl h
        · exact Or.inr (List.mem_cons_of_mem _ h)
      · rintro (h | h)
        · exact Or.inl h
        · rcases List.mem_cons.mp h with rfl | h
          · exact Or.inl hc
          · exact Or.inr h
    · rw [if_neg hc, ih]
      simp only [List.mem_append, List.mem_singleton, List.mem_cons]
      tauto

lemma findLastIdx_isSome :
    ∀ (cats : List String) (k : String), (findLastIdx k cats).isSome = true ↔ k ∈ cats := by
  intro cats
  induction cats with
  | nil => intro k; simp [findLastIdx]
  | cons c rest ih =>
    intro k
    cases hf : findLastIdx k rest with
    | some i =>
      simp only [findLastIdx, hf, Option.isSome_some, true_iff]
      exact List.mem_cons_of_mem _ ((ih k).mp (by simp [hf]))
    | none =>
      by_cases hck : c = k
      · subst hck
        simp [findLastIdx, hf]
      · have : k ∉ rest := fun hm => by
          have := (ih k).mpr hm
          rw [hf] at this
          simp at this
        simp [findLastIdx, hf, hck, this]
        exact fun e => hck e.symm

lemma mkImgs_length (count : Nat) (s : Nat → Nat → Nat) (e : Nat → Nat → Bool)
    (j : Nat) (c : String) : (mkImgs count s e j c).length = count := by
  simp [mkImgs]

lemma get_ai_image_success (i : Int) (w h r : Nat) :
    get_ai_image i w h r false =
      ("https://source.unsplash.com/" ++ toString w ++ "x" ++ toString h ++ "/?" ++
        plusEncode (AI_CATEGORIES[(i % (AI_CATEGORIES.length : Int)).toNat]!) ++
        "&sig=") ++ toString (randint 1000 9999 r) := rfl

end Assets

lemma plusEncode_data (s : String) :
    (plusEncode s).data = s.data.map fun c => if c = ' ' then '+' else c := rfl

lemma plusEncode_no_space (s : String) : ' ' ∉ (plusEncode s).data := by
  rw [plusEncode_data]
  intro hm
  rcases List.mem_map.mp hm with ⟨c, _, he⟩
  by_cases h : c = ' '
  · rw [if_pos h] at he
    exact absurd he (by decide)
  · rw [if_neg h] at he
    exact h he

lemma strAppend_inj (A : String) {x y : String} (h : A ++ x = A ++ y) : x = y := by
  have hd := congrArg String.data h
  simp only [strDataApp] at hd
  exact strExt (List.append_cancel_left hd)

lemma main_get_ai_image_success (i : Int) (r rF : Nat) :
    MainApp.get_ai_image i r rF false =
      ("https://source.unsplash.com/800x600/?" ++
        MainApp.AI_CATEGORIES[(i % (MainApp.AI_CATEGORIES.length : Int)).toNat]! ++
        "&sig=") ++ toString (randint 1000 9999 r) := rfl

/-- C8: the Content Provider accessors have the fixed cardinalities of the
data model - `PortfolioData.get_profile` contains exactly 8 skill entries,
each with a (nonempty) name and a proficiency percentage between 0 and 100,
and `PortfolioData.get_projects` returns exactly 6 projects. -/
theorem C8_content_cardinalities :
    MainApp.get_profile.skills.length = 8 ∧
    (∀ s ∈ MainApp.get_profile.skills, s.name ≠ "" ∧ 0 ≤ s.level ∧ s.level ≤ 100) ∧
    MainApp.get_projects.length = 6 := by
  refine ⟨rfl, ?_, rfl⟩
  decide

/-- C2: for every non-negative index `i`, both resolvers build the success
URL from the category `ROTATION[i mod len(ROTATION)]` of their respective
rotation list (10 entries in `assets.py`, 8 in `main.py`), for every
magnitude of `i`; shifting `i` by the rotation length selects the same
category. -/
theorem C2_category_rotation :
    (∀ i w h r : Nat,
      Assets.get_ai_image (i : Int) w h r false =
        "https://source.unsplash.com/" ++ toString w ++ "x" ++ toString h ++ "/?" ++
          plusEncode (Assets.AI_CATEGORIES[i % Assets.AI_CATEGORIES.length]!) ++
          "&sig=" ++ toString (randint 1000 9999 r)) ∧
    (∀ i r rF : Nat,
      MainApp.get_ai_image (i : Int) r rF false =
        "https://source.unsplash.com/800x600/?" ++
          MainApp.AI_CATEGORIES[i % MainApp.AI_CATEGORIES.length]! ++
          "&sig=" ++ toString (randint 1000 9999 r)) ∧
    (∀ i : Nat,
      Assets.AI_CATEGORIES[(i + Assets.AI_CATEGORIES.length) % Assets.AI_CATEGORIES.length]! =
        Assets.AI_CATEGORIES[i % Assets.AI_CATEGORIES.length]!) := by
  refine ⟨?_, ?_, ?_⟩
  · intro i w h r
    rw [Assets.get_ai_image_success]
    have hx : ((i : Int) % (Assets.AI_CATEGORIES.length : Int)).toNat =
        i % Assets.AI_CATEGORIES.length := by
      have hlen : Assets.AI_CATEGORIES.length = 10 := rfl
      rw [hlen]
      omega
    rw [hx]
  · intro i r rF
    rw [main_get_ai_image_success]
    have hx : ((i : Int) % (MainApp.AI_CATEGORIES.length : Int)).toNat =
        i % MainApp.AI_CATEGORIES.length := by
      have hlen : MainApp.AI_CATEGORIES.length = 8 := rfl
      rw [hlen]
      omega
    rw [hx]
  · intro i
    rw [Nat.add_mod_right]

/-- C1 (amended): `ProfessionalAssetManager.get_ai_image` absorbs every
failure and answers it with exactly `FALLBACK_IMAGES[index mod 5]` of the
five-element static fallback list, for every index, width, height; the
`main.py` `AssetManager.get_ai_image`, however, answers a failure with a
picsum URL carrying a fresh token from `randint(1, 1000)`, which need not
be an entry of the static fallback list. -/
theorem C1_fallback_policy :
    (∀ (i : Int) (w h r : Nat),
      Assets.get_ai_image i w h r true =
        Assets.FALLBACK_IMAGES[(i % (5 : Int)).toNat]!) ∧
    Assets.FALLBACK_IMAGES.length = 5 ∧
    (∀ (i : Int) (r rF : Nat),
      MainApp.get_ai_image i r rF true =
        "https://picsum.photos/800/600?random=" ++ toString (randint 1 1000 rF)) ∧
    (∃ rF : Nat, MainApp.get_ai_image 0 0 rF true ∉ Assets.FALLBACK_IMAGES) :=
  ⟨fun _ _ _ _ => rfl, rfl, fun _ _ _ => rfl, ⟨5, by decide⟩⟩

/-- C1 counterexample: on a forced failure the `main.py` resolver (cited by
the claim) does not return `FALLBACK[index mod len(FALLBACK)]` - at index 0
with the failure-path draw 5 its result is not any entry of the
five-element static fallback list. -/
theorem C1_counterexample : MainApp.get_ai_image 0 0 5 true ∉ Assets.FALLBACK_IMAGES := by
  decide

/-- C10: every cache-busting token embedded in a successfully formatted URL
lies in the fixed inclusive range of its operation - `[1000, 9999]` for
`get_ai_image` and for each `cache_images` item, `[10000, 99999]` for
`get_hero_image`, `[5000, 9999]` for `get_profile_image`; the profile range
is a proper sub-range of the resolve range. -/
theorem C10_token_ranges :
    (∀ (i : Int) (w h r : Nat), ∃ t, 1000 ≤ t ∧ t ≤ 9999 ∧
      Assets.get_ai_image i w h r false =
        ("https://source.unsplash.com/" ++ toString w ++ "x" ++ toString h ++ "/?" ++
          plusEncode (Assets.AI_CATEGORIES[(i % (Assets.AI_CATEGORIES.length : Int)).toNat]!) ++
          "&sig=") ++ toString t) ∧
    (∀ w h r rF : Nat, ∃ t, 10000 ≤ t ∧ t ≤ 99999 ∧
      Assets.get_hero_image w h r rF false =
        ("https://source.unsplash.com/" ++ toString w ++ "x" ++ toString h ++
          "/?artificial+intelligence+technology+code&sig=") ++ toString t) ∧
    (∀ w h r rF : Nat, ∃ t, 5000 ≤ t ∧ t ≤ 9999 ∧
      Assets.get_profile_image w h r rF false =
        ("https://source.unsplash.com/" ++ toString w ++ "x" ++ toString h ++
          "/?professional+portrait+technology&sig=") ++ toString t) ∧
    (∀ (count : Nat) (s : Nat → Nat → Nat) (e : Nat → Nat → Bool) (j : Nat) (cat : String)
      (i : Nat), i < count → e j i = false →
      ∃ t, 1000 ≤ t ∧ t ≤ 9999 ∧
        (Assets.mkImgs count s e j cat)[i]! =
          "https://source.unsplash.com/800x600/?" ++ plusEncode cat ++ "&sig=" ++ toString t) ∧
    ((1000 : Nat) ≤ 5000 ∧ (9999 : Nat) ≤ 9999 ∧ (1000 : Nat) ≠ 5000) := by
  refine ⟨?_, ?_, ?_, ?_, by norm_num⟩
  · intro i w h r
    exact ⟨randint 1000 9999 r, (randint_bounds 1000 9999 r (by norm_num)).1,
      (randint_bounds 1000 9999 r (by norm_num)).2, Assets.get_ai_image_success i w h r⟩
  · intro w h r rF
    exact ⟨randint 10000 99999 r, (randint_bounds 10000 99999 r (by norm_num)).1,
      (randint_bounds 10000 99999 r (by norm_num)).2, rfl⟩
  · intro w h r rF
    exact ⟨randint 5000 9999 r, (randint_bounds 5000 9999 r (by norm_num)).1,
      (randint_bounds 5000 9999 r (by norm_num)).2, rfl⟩
  · intro count s e j cat i hi he
    refine ⟨randint 1000 9999 (s j i), (randint_bounds 1000 9999 _ (by norm_num)).1,
      (randint_bounds 1000 9999 _ (by norm_num)).2, ?_⟩
    have hlen : i < (Assets.mkImgs count s e j cat).length := by
      rw [Assets.mkImgs_length]
      exact hi
    rw [getElem!_pos (Assets.mkImgs count s e j cat) i hlen]
    simp [Assets.mkImgs, he]

/-- Witness for C10: the batch conjunct evaluated at a concrete batch of one
item with no failure. -/
theorem C10_token_ranges_witness :
    ∃ t, 1000 ≤ t ∧ t ≤ 9999 ∧
      (Assets.mkImgs 1 (fun _ _ => 0) (fun _ _ => false) 0 "x")[0]! =
        "https://source.unsplash.com/800x600/?" ++ plusEncode "x" ++ "&sig=" ++ toString t :=
  C10_token_ranges.2.2.2.1 1 (fun _ _ => 0) (fun _ _ => false) 0 "x" 0 (by decide) rfl

/-- C7 counterexample: it is not true that any two runs of
`get_ai_image` (with distinct random draws) return distinct URLs - the
draws 0 and 9000 produce the same token 1000 and hence the same URL. -/
theorem C7_counterexample :
    ¬ (∀ r₁ r₂ : Nat, r₁ ≠ r₂ →
      Assets.get_ai_image 0 800 600 r₁ false ≠ Assets.get_ai_image 0 800 600 r₂ false) :=
  fun h => h 0 9000 (by decide) (by decide)

/-- C7 (amended): two runs of `get_ai_image` with the same index, width and
height return the same URL exactly when they draw the same cache-busting
token; distinctness holds precisely for runs whose tokens differ, not
unconditionally. -/
theorem C7_token_distinctness (i : Int) (w h r₁ r₂ : Nat) :
    Assets.get_ai_image i w h r₁ false = Assets.get_ai_image i w h r₂ false ↔
      randint 1000 9999 r₁ = randint 1000 9999 r₂ := by
  constructor
  · intro heq
    rw [Assets.get_ai_image_success, Assets.get_ai_image_success] at heq
    have hts := strAppend_inj _ heq
    have h₁ : 0 < randint 1000 9999 r₁ := by
      have := (randint_bounds 1000 9999 r₁ (by norm_num)).1
      omega
    have h₂ : 0 < randint 1000 9999 r₂ := by
      have := (randint_bounds 1000 9999 r₂ (by norm_num)).1
      omega
    exact toString_inj_pos h₁ h₂ hts
  · intro h
    rw [Assets.get_ai_image_success, Assets.get_ai_image_success, h]

/-- C4: for every integer index and all width, height and random draw, the
URL built by `get_ai_image` on its success path (the path taken in every
run without an injected fault) is nonempty and contains the decimal
representations of both the width and the height. -/
theorem C4_url_contains_dimensions (i : Int) (w h r : Nat) :
    Assets.get_ai_image i w h r false ≠ "" ∧
    hasSub (toString w).data (Assets.get_ai_image i w h r false).data = true ∧
    hasSub (toString h).data (Assets.get_ai_image i w h r false).data = true := by
  rw [Assets.get_ai_image_success]
  refine ⟨?_, ?_, ?_⟩
  · intro he
    have hd := congrArg String.data he
    simp only [strDataApp] at hd
    simp at hd
  · simp only [strDataApp, List.append_assoc]
    exact hasSub_append_left _ _ (hasSub_of_beg (begMatch_append_self _ _))
  · simp only [strDataApp, List.append_assoc]
    exact hasSub_append_left _ _ (hasSub_append_left _ _
      (hasSub_append_left _ _ (hasSub_of_beg (begMatch_append_self _ _))))

/-- C3 (amended): the `ProfessionalAssetManager` resolver plus-encodes the
selected category, so its success URL never contains a space, for every
index, width, height and draw; the `main.py` resolver cited by the claim
interpolates the category verbatim, so its success URL does contain a space
whenever the selected category is multi-word (index 0 shown). -/
theorem C3_no_space_in_url :
    (∀ (i : Int) (w h r : Nat), ' ' ∉ (Assets.get_ai_image i w h r false).data) ∧
    (∀ r rF : Nat, ' ' ∈ (MainApp.get_ai_image 0 r rF false).data) := by
  constructor
  · intro i w h r
    rw [Assets.get_ai_image_success]
    simp only [strDataApp, List.append_assoc, List.mem_append]
    push_neg
    refine ⟨by decide, repr_no_space w, by decide, repr_no_space h, by decide,
      plusEncode_no_space _, by decide, repr_no_space _⟩
  · intro r rF
    rw [main_get_ai_image_success]
    simp only [strDataApp]
    exact List.mem_append_left _ (List.mem_append_left _ (List.mem_append_right _ (by decide)))

/-- C3 counterexample: the success URL of the `main.py` resolver at index 0
contains a space character (the category `"artificial intelligence"` is
interpolated without plus-encoding). -/
theorem C3_counterexample : ' ' ∈ (MainApp.get_ai_image 0 0 0 false).data := by
  decide

/-- C5: every category passed to `cache_images` appears as a key of the
returned mapping and is mapped to exactly `count` URLs, for every failure
pattern (a failing item contributes its fallback URL instead of aborting
the batch); in particular the batch over `["x", "y"]` with count 2 has
exactly the two keys `"x"` and `"y"`. -/
theorem C5_batch_shape (cats : List String) (count : Nat)
    (s : Nat → Nat → Nat) (e : Nat → Nat → Bool) (k : String) (hk : k ∈ cats) :
    (∃ l, Assets.lookupD (Assets.cache_images cats count s e) k = some l ∧
      l.length = count) ∧
    (Assets.cache_images ["x", "y"] 2 s e).map Prod.fst = ["x", "y"] := by
  constructor
  · have hsome := (Assets.findLastIdx_isSome cats k).mpr hk
    obtain ⟨i, hf⟩ := Option.isSome_iff_exists.mp hsome
    refine ⟨Assets.mkImgs count s e (0 + i) k, ?_, Assets.mkImgs_length count s e (0 + i) k⟩
    rw [show Assets.cache_images cats count s e = Assets.cache_loop count s e cats 0 [] from rfl,
      Assets.lookupD_cache_loop, hf]
  · rw [show Assets.cache_images ["x", "y"] 2 s e =
        Assets.cache_loop 2 s e ["x", "y"] 0 [] from rfl,
      Assets.keys_cache_loop]
    decide

/-- Witness for C5: the concrete batch `["x", "y"]` with count 2 and a
failure-free oracle, looked up at category `"x"`. -/
theorem C5_batch_shape_witness :
    (∃ l, Assets.lookupD
        (Assets.cache_images ["x", "y"] 2 (fun _ _ => 0) (fun _ _ => false)) "x" = some l ∧
      l.length = 2) ∧
    (Assets.cache_images ["x", "y"] 2 (fun _ _ => 0) (fun _ _ => false)).map Prod.fst =
      ["x", "y"] :=
  C5_batch_shape ["x", "y"] 2 (fun _ _ => 0) (fun _ _ => false) "x" (by decide)

/-- C9: duplicate categories collapse in the `cache_images` result - the
mapping's keys are exactly the distinct input categories (no duplicates,
first-occurrence order), each key holds the URL list generated at its last
occurrence, and a duplicated input (here `["x", "y", "x"]`) therefore
yields fewer keys than input elements, `"x"` keeping the list built at
outer position 2. -/
theorem C9_duplicate_collapse (cats : List String) (count : Nat)
    (s : Nat → Nat → Nat) (e : Nat → Nat → Bool) :
    (∀ k, Assets.lookupD (Assets.cache_images cats count s e) k =
      Option.map (fun i => Assets.mkImgs count s e i k) (findLastIdx k cats)) ∧
    ((Assets.cache_images cats count s e).map Prod.fst).Nodup ∧
    (∀ k, k ∈ (Assets.cache_images cats count s e).map Prod.fst ↔ k ∈ cats) ∧
    (Assets.cache_images ["x", "y", "x"] 1 s e).map Prod.fst = ["x", "y"] ∧
    Assets.lookupD (Assets.cache_images ["x", "y", "x"] 1 s e) "x" =
      some (Assets.mkImgs 1 s e 2 "x") := by
  refine ⟨?_, ?_, ?_, ?_, ?_⟩
  · intro k
    rw [show Assets.cache_images cats count s e = Assets.cache_loop count s e cats 0 [] from rfl,
      Assets.lookupD_cache_loop]
    cases hf : findLastIdx k cats with
    | some i => simp
    | none => rfl
  · rw [show Assets.cache_images cats count s e = Assets.cache_loop count s e cats 0 [] from rfl,
      Assets.keys_cache_loop]
    exact Assets.dedupAppend_nodup cats _ List.nodup_nil
  · intro k
    rw [show Assets.cache_images cats count s e = Assets.cache_loop count s e cats 0 [] from rfl,
      Assets.keys_cache_loop]
    rw [Assets.dedupAppend_mem]
    simp
  · rw [show Assets.cache_images ["x", "y", "x"] 1 s e =
        Assets.cache_loop 1 s e ["x", "y", "x"] 0 [] from rfl,
      Assets.keys_cache_loop]
    decide
  · rw [show Assets.cache_images ["x", "y", "x"] 1 s e =
        Assets.cache_loop 1 s e ["x", "y", "x"] 0 [] from rfl,
      Assets.lookupD_cache_loop]
    have hf : findLastIdx "x" ["x", "y", "x"] = some 2 := by decide
    rw [hf]

lemma svgSeg_noSpan (w h : Nat) (t : String) (fdiv : Nat → Nat → String)
    (ht : '<' ∉ t.data) (hf : ∀ n d, '<' ∉ (fdiv n d).data) (p' : List Char)
    (hl : ∀ lit ∈
      ["<svg width='", "' height='",
       "' xmlns='http://www.w3.org/2000/svg' viewBox='0 0 ", " ",
       "'>\n  <defs>\n    <linearGradient id=\"grad\" x1=\"0%\" y1=\"0%\" x2=\"100%\" y2=\"100%\">\n      <stop offset=\"0%\" style=\"stop-color:#1a2980;stop-opacity:1\" />\n      <stop offset=\"100%\" style=\"stop-color:#26d0ce;stop-opacity:1\" />\n    </linearGradient>\n  </defs>\n  <rect fill='url(#grad)' width='",
       "'/>\n  <text x='50%' y='50%' dominant-baseline='middle' text-anchor='middle' font-family='sans-serif' font-size='24' fill='",
       "#ffffff", "'>",
       "</text>\n  <g fill=\"none\" stroke=\"rgba(255,255,255,0.2)\" stroke-width=\"1\">\n    <path d=\"M0,",
       " L", ",",
       "\" />\n    <path d=\"M0,",
       "\" />\n    <path d=\"M",
       ",0 L",
       "\" />\n  </g>\n</svg>"],
      noSpanB ('<' :: p') lit.data = true) :
    ∀ s ∈ (Assets.svgSegments w h t fdiv).map String.data,
      noSpanB ('<' :: p') s = true := by
  intro s hs
  simp only [Assets.svgSegments, List.map_cons, List.map_nil, List.mem_cons,
    List.not_mem_nil, or_false] at hs
  rcases hs with rfl | rfl | rfl | rfl | rfl | rfl | rfl | rfl | rfl | rfl | rfl | rfl | rfl |
    rfl | rfl | rfl | rfl | rfl | rfl | rfl | rfl | rfl | rfl | rfl | rfl | rfl | rfl | rfl |
    rfl | rfl | rfl | rfl | rfl | rfl | rfl | rfl | rfl | rfl | rfl | rfl | rfl
  all_goals first
    | exact hl _ (by decide)
    | exact noSpanB_head p' (repr_no_lt _)
    | exact noSpanB_head p' ht
    | exact noSpanB_head p' (hf _ _)

/-- C6 counterexample: at the concrete input `(100, 50, "Test")` the
generated vector-graphic markup contains four `<path` guideline strokes,
not three as claimed. -/
theorem C6_counterexample :
    countOcc patPath (Assets.get_placeholder_svg 100 50 "Test" Assets.sampleDiv).data = 4 ∧
    countOcc patPath (Assets.get_placeholder_svg 100 50 "Test" Assets.sampleDiv).data ≠ 3 := by
  decide

/-- C6 (amended): `get_placeholder_svg` is a pure function of
`(width, height, label)` (plus the rendering of the two float divisions);
for every input whose label and float renderings contain no `'<'`, its
output contains exactly four guideline `<path` strokes, a two-stop gradient
(exactly two `<stop` elements), and a centered label (exactly one `<text`
element, anchored with `text-anchor='middle'`); for `(100, 50, "Test")` the
output contains `width='100'`, `height='50'`, and the literal text `Test`
exactly once. -/
theorem C6_svg_structure (w h : Nat) (t : String) (fdiv : Nat → Nat → String)
    (ht : '<' ∉ t.data) (hf : ∀ n d, '<' ∉ (fdiv n d).data) :
    (countOcc patPath (Assets.get_placeholder_svg w h t fdiv).data = 4 ∧
     countOcc patStop (Assets.get_placeholder_svg w h t fdiv).data = 2 ∧
     countOcc patText (Assets.get_placeholder_svg w h t fdiv).data = 1 ∧
     hasSub ("text-anchor='middle'").data (Assets.get_placeholder_svg w h t fdiv).data = true) ∧
    (hasSub ("width='100'").data
        (Assets.get_placeholder_svg 100 50 "Test" Assets.sampleDiv).data = true ∧
     hasSub ("height='50'").data
        (Assets.get_placeholder_svg 100 50 "Test" Assets.sampleDiv).data = true ∧
     countOcc patTest (Assets.get_placeholder_svg 100 50 "Test" Assets.sampleDiv).data = 1) := by
  have hd : (Assets.get_placeholder_svg w h t fdiv).data =
      ((Assets.svgSegments w h t fdiv).map String.data).flatten := join_data _
  have zw : ∀ p' : List Char, countOcc ('<' :: p') (toString w).data = 0 :=
    fun p' => countOcc_zero (repr_no_lt w)
  have zh : ∀ p' : List Char, countOcc ('<' :: p') (toString h).data = 0 :=
    fun p' => countOcc_zero (repr_no_lt h)
  have zt : ∀ p' : List Char, countOcc ('<' :: p') t.data = 0 :=
    fun p' => countOcc_zero ht
  have zf : ∀ (p' : List Char) (n d : Nat), countOcc ('<' :: p') (fdiv n d).data = 0 :=
    fun p' n d => countOcc_zero (hf n d)
  refine ⟨⟨?_, ?_, ?_, ?_⟩, by decide, by decide, by decide⟩
  · rw [hd, show patPath = '<' :: ['p', 'a', 't', 'h'] from rfl,
      countOcc_flattenL _ _ (svgSeg_noSpan w h t fdiv ht hf ['p', 'a', 't', 'h'] (by decide))]
    simp only [Assets.svgSegments, List.map_cons, List.map_nil, List.sum_cons, List.sum_nil]
    rw [zw ['p', 'a', 't', 'h'], zh ['p', 'a', 't', 'h'], zt ['p', 'a', 't', 'h'],
      zf ['p', 'a', 't', 'h'] h 3, zf ['p', 'a', 't', 'h'] (h * 2) 3,
      zf ['p', 'a', 't', 'h'] w 3, zf ['p', 'a', 't', 'h'] (w * 2) 3]
    decide
  · rw [hd, show patStop = '<' :: ['s', 't', 'o', 'p'] from rfl,
      countOcc_flattenL _ _ (svgSeg_noSpan w h t fdiv ht hf ['s', 't', 'o', 'p'] (by decide))]
    simp only [Assets.svgSegments, List.map_cons, List.map_nil, List.sum_cons, List.sum_nil]
    rw [zw ['s', 't', 'o', 'p'], zh ['s', 't', 'o', 'p'], zt ['s', 't', 'o', 'p'],
      zf ['s', 't', 'o', 'p'] h 3, zf ['s', 't', 'o', 'p'] (h * 2) 3,
      zf ['s', 't', 'o', 'p'] w 3, zf ['s', 't', 'o', 'p'] (w * 2) 3]
    decide
  · rw [hd, show patText = '<' :: ['t', 'e', 'x', 't'] from rfl,
      countOcc_flattenL _ _ (svgSeg_noSpan w h t fdiv ht hf ['t', 'e', 'x', 't'] (by decide))]
    simp only [Assets.svgSegments, List.map_cons, List.map_nil, List.sum_cons, List.sum_nil]
    rw [zw ['t', 'e', 'x', 't'], zh ['t', 'e', 'x', 't'], zt ['t', 'e', 'x', 't'],
      zf ['t', 'e', 'x', 't'] h 3, zf ['t', 'e', 'x', 't'] (h * 2) 3,
      zf ['t', 'e', 'x', 't'] w 3, zf ['t', 'e', 'x', 't'] (w * 2) 3]
    decide
  · rw [hd]
    refine hasSub_flatten (s :=
      ("'/>\n  <text x='50%' y='50%' dominant-baseline='middle' text-anchor='middle' font-family='sans-serif' font-size='24' fill='").data)
      ?_ (by decide)
    simp [Assets.svgSegments]

/-- Witness for C6: the amended statement applied at the concrete sample
input `(100, 50, "Test")` with the concrete float renderings. -/
theorem C6_svg_structure_witness :
    ('<' ∉ ("Test").data) ∧
    ((countOcc patPath (Assets.get_placeholder_svg 100 50 "Test" Assets.sampleDiv).data = 4 ∧
      countOcc patStop (Assets.get_placeholder_svg 100 50 "Test" Assets.sampleDiv).data = 2 ∧
      countOcc patText (Assets.get_placeholder_svg 100 50 "Test" Assets.sampleDiv).data = 1 ∧
      hasSub ("text-anchor='middle'").data
        (Assets.get_placeholder_svg 100 50 "Test" Assets.sampleDiv).data = true) ∧
     (hasSub ("width='100'").data
        (Assets.get_placeholder_svg 100 50 "Test" Assets.sampleDiv).data = true ∧
      hasSub ("height='50'").data
        (Assets.get_placeholder_svg 100 50 "Test" Assets.sampleDiv).data = true ∧
      countOcc patTest (Assets.get_placeholder_svg 100 50 "Test" Assets.sampleDiv).data = 1)) :=
  ⟨by decide, C6_svg_structure 100 50 "Test" Assets.sampleDiv (by decide)
    (fun n d => by unfold Assets.sampleDiv; split_ifs <;> decide)⟩

end Portfolio
